import Mathlib

/-!
Shallow embedding of the LinUCB topic bandit in `src/api/topic_bandit.py`
(`class TopicBandit`), over exact rationals.

Modelling conventions:
* Python strings are lists of characters (`PyStr`); `str.lower()` is
  `Char.toLower` mapped, and the Python substring test `a in b` is
  `containsSub`.
* numpy float64 arithmetic is idealised as `ℚ`.  The two transcendental
  functions the code uses, `np.exp` (recency decay) and `np.sqrt`
  (exploration bonus), are abstracted as an environment parameter `Env`;
  concrete instantiations are used where a value is needed.
* `time.time()` is a `now : ℚ` argument threaded into each operation.
* `np.linalg.inv` is `minv`: it fails exactly on singular matrices and
  otherwise returns `det⁻¹ • adjugate`, the exact inverse.
* The per-arm numpy arrays (`A_matrices`, `A_inv_matrices`, `b_vectors`,
  `values`, `counts`, `last_selected_times`) are modelled as total
  functions `ℕ → _`; the code only reads or writes them at indices
  `0 ≤ i < n_topics`.
* Exceptions.  `update` catches the inversion failure internally and
  its out-of-range guard returns early; neither reaches the caller.
  One uncaught error path remains: a payload whose `'emotion'` entry is
  a truthy non-dict (a nonempty bare string in this data model) makes
  `_get_feature_vector` raise `AttributeError` at
  `emotion_data.get('primary_emotions')` (line 149), and the exception
  escapes `select_topic` and `update` before either performs any
  mutation.  `featureVector`, `selectTopic` and `update` therefore
  return `Option` values, with `none` modelling the escaped exception
  (the caller's state is untouched on that path).
-/

open Matrix

-- Batteries marks the arithmetic on `Rat` irreducible, which blocks
-- `decide`-style evaluation of the model on concrete inputs; restore
-- reducibility for them (they are ordinary computable definitions).
set_option allowUnsafeReducibility true in
attribute [semireducible] Rat.add

set_option allowUnsafeReducibility true in
attribute [semireducible] Rat.mul

set_option allowUnsafeReducibility true in
attribute [semireducible] Rat.inv

set_option allowUnsafeReducibility true in
attribute [semireducible] Rat.sub

namespace RecoMate

/-- Python strings, modelled as lists of characters. -/
abbrev PyStr := List Char

/-- `str.lower()`. -/
def lowerStr (s : PyStr) : PyStr := s.map Char.toLower

/-- Python's two-argument `max` on numbers, as an executable definition
(the lattice `⊔` on `ℚ` does not reduce in the kernel). -/
def qmax (a b : ℚ) : ℚ := if a ≤ b then b else a

/-- Does `hay` start with `pat`? -/
def startsWith : PyStr → PyStr → Bool
  | [], _ => true
  | _ :: _, [] => false
  | a :: pat, b :: hay => if a = b then startsWith pat hay else false

/-- The Python substring test `pat in hay` (contiguous occurrence;
the empty string occurs in every string). -/
def containsSub (pat : PyStr) : PyStr → Bool
  | [] => startsWith pat []
  | b :: hay => startsWith pat (b :: hay) || containsSub pat hay

/-- `self.emotion_labels = ['happy', 'sad', 'angry', 'surprised', 'neutral']`. -/
def emotionLabels : List PyStr :=
  ["happy", "sad", "angry", "surprised", "neutral"].map String.toList

/-- `self.feature_dim = 4 + len(self.emotion_labels)`. -/
def featureDim : ℕ := 4 + emotionLabels.length

instance : NeZero featureDim := ⟨by decide⟩

abbrev Vec := Fin featureDim → ℚ
abbrev Mat := Matrix (Fin featureDim) (Fin featureDim) ℚ

/-- The `'emotion'` entry of a feature payload: absent/falsy, a dict
carrying a `'primary_emotions'` list, or a bare string. -/
inductive EmotionData where
  | nothing
  | primList (xs : List PyStr)
  | strVal (s : PyStr)
deriving DecidableEq

/-- A feature payload dict: an optional `'context_text'` entry and the
`'emotion'` entry. -/
structure Payload where
  contextText : Option PyStr
  emotion : EmotionData
deriving DecidableEq

/-- One record appended by `add_to_history`. -/
structure HistoryRecord where
  userInput : PyStr
  response : PyStr
  topic : PyStr
  timestamp : ℚ
deriving DecidableEq

/-- The transcendental functions used by the code (`np.exp` in the recency
feature, `np.sqrt` in the exploration bonus), abstracted. -/
structure Env where
  expf : ℚ → ℚ
  sqrtf : ℚ → ℚ

/-- The mutable state of a `TopicBandit` instance (the fields the three
public operations `select_topic` / `update` / `add_to_history` touch). -/
structure BanditState where
  topics : List PyStr
  explorationParam : ℚ
  A : ℕ → Mat
  Ainv : ℕ → Mat
  b : ℕ → Vec
  values : ℕ → ℚ
  counts : ℕ → ℚ
  lastSelectedTimes : ℕ → ℚ
  totalSelections : ℕ
  lastContexts : ℕ → Option PyStr
  lastFeatures : ℕ → Option Payload
  history : List HistoryRecord

/-- Point update of an indexed array (`arr[i] = v`). -/
def setAt {α : Type} (f : ℕ → α) (i : ℕ) (v : α) : ℕ → α :=
  fun j => if j = i then v else f j

/-- `TopicBandit.__init__(topics, alpha)`: all matrices at the identity,
all accumulators at zero, `exploration_param = max(alpha, 0.01)`. -/
def initState (topics : List PyStr) (alpha : ℚ) : BanditState where
  topics := topics
  explorationParam := qmax alpha (1/100)
  A := fun _ => 1
  Ainv := fun _ => 1
  b := fun _ => 0
  values := fun _ => 0
  counts := fun _ => 0
  lastSelectedTimes := fun _ => 0
  totalSelections := 0
  lastContexts := fun _ => none
  lastFeatures := fun _ => none
  history := []

/-- Does the `'emotion'` entry make `_get_feature_vector` raise?
`emotion_data = feature_payload.get('emotion') or {}` replaces a falsy
entry (missing, `None`, the empty string, `{}`) by `{}` but keeps a
truthy one as-is; a truthy non-dict — in this data model a nonempty
bare string — then raises `AttributeError: 'str' object has no
attribute 'get'` at `emotion_data.get('primary_emotions')` (line 149),
and the exception propagates uncaught out of `select_topic`/`update`. -/
def emotionRaises : EmotionData → Bool
  | .strVal (_ :: _) => true
  | _ => false

/-- The dominant emotion extracted in `_get_feature_vector`, on payloads
that do not raise: the first entry of a nonempty `primary_emotions`
list, else `''`.  The catch-all covers a dict without a nonempty
`primary_emotions` list, a missing/falsy entry (replaced by `{}` via
`or {}`, including the empty bare string), and nothing else: a nonempty
bare string never reaches this point because line 149 raises first (see
`emotionRaises`), which also makes the source's
`elif isinstance(emotion_data, str)` branch (lines 153-154) dead code. -/
def primaryEmotion : EmotionData → PyStr
  | .primList (x :: _) => lowerStr x
  | _ => []

/-- The emotion one-hot block of `_get_feature_vector`: `1.0` where the
`j`-th label equals the dominant emotion, else `0.0`. -/
def oneHot (p : Payload) (j : ℕ) : ℚ :=
  if emotionLabels.getD j [] = primaryEmotion p.emotion then 1 else 0

/-- The vector `_get_feature_vector` builds when the emotion entry does
not raise: bias, keyword match (`topic_keyword in context_lower`),
popularity (`counts[i] / max(total_selections, 1)`), recency
(`exp(-max(now - last, 0)/300)` if ever selected, else `0`), and the
emotion one-hot block. -/
def featureVectorCore (env : Env) (s : BanditState) (topicIdx : ℕ)
    (p : Payload) (now : ℚ) : Vec :=
  ![1,
    if containsSub (lowerStr (s.topics.getD topicIdx []))
        (lowerStr (p.contextText.getD [])) then 1 else 0,
    s.counts topicIdx / qmax (((s.totalSelections : ℤ)) : ℚ) 1,
    if 0 < s.lastSelectedTimes topicIdx then
      env.expf (-(qmax (now - s.lastSelectedTimes topicIdx) 0 / 300))
    else 0,
    oneHot p 0, oneHot p 1, oneHot p 2, oneHot p 3, oneHot p 4]

/-- `TopicBandit._get_feature_vector(topic_idx, feature_payload)`: the
encoded vector, or `none` when the payload's emotion entry raises
`AttributeError` (line 149) — an exception the callers do not catch. -/
def featureVector (env : Env) (s : BanditState) (topicIdx : ℕ)
    (p : Payload) (now : ℚ) : Option Vec :=
  if emotionRaises p.emotion then none
  else some (featureVectorCore env s topicIdx p now)

/-- `np.linalg.inv`: fails exactly on a singular matrix, otherwise
returns the exact inverse.  The adjugate formula `det⁻¹ • adjugate` is
the inverse precisely when the matrix is invertible (over a field), so
the singularity test is phrased as the product check below. -/
def minv (M : Mat) : Option Mat :=
  if M * (M.det⁻¹ • M.adjugate) = 1 then some (M.det⁻¹ • M.adjugate) else none

/-- The per-arm statistics (`A_matrices[i]`, `A_inv_matrices[i]`,
`b_vectors[i]`, `counts[i]`, `values[i]`). -/
structure ArmData where
  A : Mat
  Ainv : Mat
  b : Vec
  count : ℚ
  value : ℚ

/-- Read one arm's statistics out of the state. -/
def getArm (s : BanditState) (i : ℕ) : ArmData :=
  ⟨s.A i, s.Ainv i, s.b i, s.counts i, s.values i⟩

/-- The arm-level body of `TopicBandit.update` once the feature vector
`x` is fixed (lines 271-286): `A += np.outer(x, x)`,
`b ← b + reward * x`, then invert; on `LinAlgError` reset `A`, `Ainv`,
`b` to identity/identity/zero and return (count and value untouched);
on success store the inverse, increment `count` and nudge `value`. -/
def armStep (x : Vec) (r : ℚ) (a : ArmData) : ArmData :=
  match minv (a.A + vecMulVec x x) with
  | none => ⟨1, 1, 0, a.count, a.value⟩
  | some B =>
      ⟨a.A + vecMulVec x x, B, a.b + r • x, a.count + 1,
        a.value + (1/10) * (r - a.value)⟩

/-- The payload used by `select_topic`: `{"context_text": context}` when
`features is None`, else a copy of `features` with
`setdefault("context_text", context)`. -/
def resolveSelectPayload (context : PyStr) (features : Option Payload) : Payload :=
  match features with
  | none => ⟨some context, EmotionData.nothing⟩
  | some f => ⟨some (f.contextText.getD context), f.emotion⟩

/-- The score `select_topic` computes for one arm once its feature
vector exists: `theta·x + exploration_param * sqrt(x·(Ainv x))` with
`theta = Ainv b`. -/
def armScore (env : Env) (s : BanditState) (i : ℕ) (p : Payload) (now : ℚ) : ℚ :=
  (s.Ainv i *ᵥ s.b i) ⬝ᵥ featureVectorCore env s i p now +
    s.explorationParam *
      env.sqrtf (featureVectorCore env s i p now ⬝ᵥ
        (s.Ainv i *ᵥ featureVectorCore env s i p now))

/-- One iteration of the selection loop: keep the incumbent unless the
new score is strictly greater (`if score > best_score`); the initial
`best_score = -inf` is the `none` accumulator. -/
def selectStep (env : Env) (s : BanditState) (p : Payload) (now : ℚ)
    (acc : Option ℚ × ℕ) (idx : ℕ) : Option ℚ × ℕ :=
  let score := armScore env s idx p now
  match acc.1 with
  | none => (some score, idx)
  | some best => if best < score then (some score, idx) else acc

/-- The argmax loop of `select_topic` over `range(self.n_topics)`. -/
def selectIdx (env : Env) (s : BanditState) (p : Payload) (now : ℚ) : ℕ :=
  ((List.range s.topics.length).foldl (selectStep env s p now) (none, 0)).2

/-- `TopicBandit.select_topic(context, features)`: score every arm, pick
the strict argmax (lowest index on ties), record the chosen arm's last
context and payload, stamp its selection time, bump `total_selections`,
and return `(best_idx, topics[best_idx])` with the new state.  When the
resolved payload's emotion entry raises, the `AttributeError` escapes
from the feature encoding in the first loop iteration, before any of
the mutations at lines 80-84: modelled as `none`.  The raise condition
depends only on the payload, which is fixed across the loop, so it is
checked once up front. -/
def selectTopic (env : Env) (s : BanditState) (context : PyStr)
    (features : Option Payload) (now : ℚ) :
    Option ((ℕ × PyStr) × BanditState) :=
  if emotionRaises (resolveSelectPayload context features).emotion then none
  else some
    ((selectIdx env s (resolveSelectPayload context features) now,
      s.topics.getD (selectIdx env s (resolveSelectPayload context features) now) []),
     { s with
        lastContexts := setAt s.lastContexts
          (selectIdx env s (resolveSelectPayload context features) now) (some context)
        lastFeatures := setAt s.lastFeatures
          (selectIdx env s (resolveSelectPayload context features) now)
          (some (resolveSelectPayload context features))
        lastSelectedTimes := setAt s.lastSelectedTimes
          (selectIdx env s (resolveSelectPayload context features) now) now
        totalSelections := s.totalSelections + 1 })

/-- The payload `update` trains on: an explicit `features` gets
`setdefault("context_text", self._last_contexts.get(idx, ""))`; an
omitted one falls back to `self._last_features.get(idx)` and then to a
context-only payload. -/
def resolveUpdatePayload (s : BanditState) (i : ℕ)
    (features : Option Payload) : Payload :=
  match features with
  | none =>
    match s.lastFeatures i with
    | some f => f
    | none => ⟨some ((s.lastContexts i).getD []), EmotionData.nothing⟩
  | some f => ⟨some (f.contextText.getD ((s.lastContexts i).getD [])), f.emotion⟩

/-- The feature vector `update` recomputes for arm `i` (the encoding
succeeds whenever the resolved payload does not raise; `update` checks
that first). -/
def updateVector (env : Env) (s : BanditState) (i : ℕ)
    (features : Option Payload) (now : ℚ) : Vec :=
  featureVectorCore env s i (resolveUpdatePayload s i features) now

/-- The matrix `A + x·xᵗ` that `update` asks `np.linalg.inv` to invert. -/
def updatedA (env : Env) (s : BanditState) (i : ℕ)
    (features : Option Payload) (now : ℚ) : Mat :=
  (getArm s i).A + vecMulVec (updateVector env s i features now)
    (updateVector env s i features now)

/-- `TopicBandit.update(topic_idx, reward, features)`: a warn-and-return
no-op on an out-of-range index (`some s`: the guard precedes everything,
so no exception either); otherwise resolve the payload and encode the
feature vector — a raising emotion entry makes the `AttributeError`
escape before any mutation (`none`) — then the arm-level step `armStep`
is written back into the per-arm arrays.  The Python index is a machine
integer, so the index is modelled as `ℤ`. -/
def update (env : Env) (s : BanditState) (idx : ℤ) (r : ℚ)
    (features : Option Payload) (now : ℚ) : Option BanditState :=
  if idx < 0 ∨ (s.topics.length : ℤ) ≤ idx then some s
  else if emotionRaises (resolveUpdatePayload s idx.toNat features).emotion then none
  else some
    { s with
        A := setAt s.A idx.toNat
          (armStep (updateVector env s idx.toNat features now) r (getArm s idx.toNat)).A
        Ainv := setAt s.Ainv idx.toNat
          (armStep (updateVector env s idx.toNat features now) r (getArm s idx.toNat)).Ainv
        b := setAt s.b idx.toNat
          (armStep (updateVector env s idx.toNat features now) r (getArm s idx.toNat)).b
        counts := setAt s.counts idx.toNat
          (armStep (updateVector env s idx.toNat features now) r (getArm s idx.toNat)).count
        values := setAt s.values idx.toNat
          (armStep (updateVector env s idx.toNat features now) r (getArm s idx.toNat)).value }

/-- `TopicBandit.add_to_history(user_input, response, topic)`: append one
record; nothing is ever trimmed. -/
def addToHistory (s : BanditState) (userInput response topic : PyStr)
    (now : ℚ) : BanditState :=
  { s with history := s.history ++ [⟨userInput, response, topic, now⟩] }

/-- Cold-start per-arm statistics. -/
def coldArm : ArmData := ⟨1, 1, 0, 0, 0⟩

/-- `k` repetitions of the arm-level update with a fixed feature vector
`x` and fixed reward `r`, from the cold-start arm. -/
def armIter (x : Vec) (r : ℚ) : ℕ → ArmData
  | 0 => coldArm
  | k + 1 => armStep x r (armIter x r k)

/-- The exploitation term `theta · x` with `theta = Ainv b`. -/
def thetaDot (a : ArmData) (x : Vec) : ℚ := (a.Ainv *ᵥ a.b) ⬝ᵥ x

/-- The cached-inverse invariant of the spec: for every arm,
`Ainv` is a two-sided inverse of `A` (so `A` is invertible and
`Ainv = A⁻¹`). -/
def GoodState (s : BanditState) : Prop :=
  ∀ i, i < s.topics.length → s.A i * s.Ainv i = 1 ∧ s.Ainv i * s.A i = 1

/-! ### Basic lemmas about the embedding -/

lemma setAt_same {α : Type} (f : ℕ → α) (i : ℕ) (v : α) : setAt f i v i = v := by
  simp [setAt]

lemma setAt_ne {α : Type} (f : ℕ → α) {i j : ℕ} (v : α) (h : j ≠ i) :
    setAt f i v j = f j := by
  simp [setAt, h]

lemma setAt_self {α : Type} (f : ℕ → α) (i : ℕ) : setAt f i (f i) = f := by
  funext j
  by_cases h : j = i
  · subst h; simp [setAt]
  · simp [setAt, h]

/-- If `minv` succeeds, the returned matrix is a two-sided inverse. -/
lemma minv_mul {A B : Mat} (h : minv A = some B) : A * B = 1 ∧ B * A = 1 := by
  unfold minv at h
  split at h
  · next hc =>
      obtain rfl : _ = B := Option.some_inj.mp h
      exact ⟨hc, Matrix.mul_eq_one_comm.mp hc⟩
  · exact absurd h (by simp)

/-- If some right inverse exists, `minv` succeeds and returns it (the
inverse of a square matrix is unique). -/
lemma minv_eq_some {A B : Mat} (h : A * B = 1) : minv A = some B := by
  have hu : IsUnit A.det := Matrix.isUnit_det_of_right_inverse h
  have h2 : A⁻¹ = A.det⁻¹ • A.adjugate := by
    rw [Matrix.inv_def, Ring.inverse_eq_inv]
  have hc : A * (A.det⁻¹ • A.adjugate) = 1 := by
    rw [← h2]; exact Matrix.mul_nonsing_inv A hu
  have hv : A.det⁻¹ • A.adjugate = B := by
    rw [← h2, Matrix.inv_eq_right_inv h]
  rw [minv, if_pos hc, hv]

/-- `np.linalg.inv` fails on the zero matrix. -/
lemma minv_zero : minv 0 = none := by
  rw [minv, if_neg]
  intro hc
  rw [zero_mul] at hc
  have h0 := congrFun (congrFun hc 0) 0
  simp [Matrix.one_apply] at h0

/-- A concrete environment for evaluating the model on concrete inputs:
`np.exp` stands in as the positive constant `1/2` and `np.sqrt` as the
strictly monotone identity (the two properties of the real functions the
evaluated scenarios rely on). -/
def env0 : Env := ⟨fun _ => 1/2, fun q => q⟩

/-- `armStep` on the inversion-failure branch: reset to cold start,
`count` and `value` untouched. -/
lemma armStep_none {x : Vec} {r : ℚ} {a : ArmData}
    (h : minv (a.A + vecMulVec x x) = none) :
    armStep x r a = ⟨1, 1, 0, a.count, a.value⟩ := by
  unfold armStep
  rw [h]

/-- `armStep` on the success branch. -/
lemma armStep_some {x : Vec} {r : ℚ} {a : ArmData} {B : Mat}
    (h : minv (a.A + vecMulVec x x) = some B) :
    armStep x r a =
      ⟨a.A + vecMulVec x x, B, a.b + r • x, a.count + 1,
        a.value + (1/10) * (r - a.value)⟩ := by
  unfold armStep
  rw [h]

/-- `update` on a valid index and a non-raising payload: the call
returns normally, with the per-arm write-back. -/
lemma update_eq_of_valid (env : Env) (s : BanditState) (idx : ℤ) (r : ℚ)
    (features : Option Payload) (now : ℚ)
    (h : ¬(idx < 0 ∨ (s.topics.length : ℤ) ≤ idx))
    (hemo : emotionRaises (resolveUpdatePayload s idx.toNat features).emotion = false) :
    update env s idx r features now = some
      { s with
          A := setAt s.A idx.toNat
            (armStep (updateVector env s idx.toNat features now) r
              (getArm s idx.toNat)).A
          Ainv := setAt s.Ainv idx.toNat
            (armStep (updateVector env s idx.toNat features now) r
              (getArm s idx.toNat)).Ainv
          b := setAt s.b idx.toNat
            (armStep (updateVector env s idx.toNat features now) r
              (getArm s idx.toNat)).b
          counts := setAt s.counts idx.toNat
            (armStep (updateVector env s idx.toNat features now) r
              (getArm s idx.toNat)).count
          values := setAt s.values idx.toNat
            (armStep (updateVector env s idx.toNat features now) r
              (getArm s idx.toNat)).value } := by
  rw [update, if_neg h, if_neg (by simp [hemo])]

/-! ### Concrete states used by witnesses and counterexamples -/

/-- A one-arm engine at cold start. -/
def sBase : BanditState := initState [['a']] 1

/-- The feature vector an `update` on `sBase` would train on. -/
def xC1 : Vec := updateVector env0 sBase 0 none 0

/-- `sBase` with arm `0`'s `A` forced to a matrix making `A + x·xᵗ`
singular (the spec's "forcing `A` to a non-invertible matrix"). -/
def sC1 : BanditState := { sBase with A := setAt sBase.A 0 (-(vecMulVec xC1 xC1)) }

/-- On `sC1`, the update's matrix inversion fails. -/
lemma sC1_fail : minv (updatedA env0 sC1 0 none 0) = none := by
  have hx : updateVector env0 sC1 0 none 0 = xC1 := rfl
  have hA : updatedA env0 sC1 0 none 0 = 0 := by
    rw [updatedA, hx]
    show setAt sBase.A 0 (-(vecMulVec xC1 xC1)) 0 + vecMulVec xC1 xC1 = 0
    rw [setAt_same]
    exact neg_add_cancel _
  rw [hA, minv_zero]

/-! ### Claims -/

/-- C1: for every valid arm index, every reward, and every payload on
which feature encoding succeeds, if inversion of the updated matrix
`A + x·xᵗ` fails during `update`, the call still returns normally
(`some`, the `LinAlgError` is caught: nothing propagates to the caller)
with that arm's `A` and `Ainv` exactly the identity, its `b` exactly
zero, and the `counts` and `values` arrays untouched. -/
theorem c1_singular_reset (env : Env) (s : BanditState) (idx : ℤ) (r : ℚ)
    (features : Option Payload) (now : ℚ)
    (h0 : 0 ≤ idx) (hn : idx < (s.topics.length : ℤ))
    (hemo : emotionRaises (resolveUpdatePayload s idx.toNat features).emotion = false)
    (hfail : minv (updatedA env s idx.toNat features now) = none) :
    update env s idx r features now = some
      { s with
          A := setAt s.A idx.toNat 1
          Ainv := setAt s.Ainv idx.toNat 1
          b := setAt s.b idx.toNat 0 } := by
  rw [update_eq_of_valid env s idx r features now (by omega) hemo]
  simp only [updatedA] at hfail
  rw [armStep_none hfail]
  simp only [getArm, setAt_self]

/-- Witness for C1 at a concrete singular state. -/
theorem c1_witness :
    ((0 : ℤ) ≤ 0) ∧ ((0 : ℤ) < (sC1.topics.length : ℤ)) ∧
    emotionRaises (resolveUpdatePayload sC1 0 none).emotion = false ∧
    minv (updatedA env0 sC1 0 none 0) = none ∧
    update env0 sC1 0 (8/10) none 0 = some
      { sC1 with
          A := setAt sC1.A 0 1
          Ainv := setAt sC1.Ainv 0 1
          b := setAt sC1.b 0 0 } :=
  ⟨le_refl 0, by decide, rfl, sC1_fail,
    c1_singular_reset env0 sC1 0 (8/10) none 0 (le_refl 0) (by decide) rfl sC1_fail⟩

/-- C2: the invariant `Ainv = A⁻¹` (with `A` invertible, expressed as
`A * Ainv = 1 ∧ Ainv * A = 1` for every arm) holds at construction and
is preserved by every operation: by every `select_topic` call and every
`update` call that returns (on both the success and the reset path); on
the exception path no new state is produced, so nothing can break it. -/
theorem c2_inverse_invariant :
    (∀ topics alpha, GoodState (initState topics alpha)) ∧
    (∀ env s context features now res,
      selectTopic env s context features now = some res →
      GoodState s → GoodState res.2) ∧
    (∀ env s idx r features now s',
      update env s idx r features now = some s' →
      GoodState s → GoodState s') := by
  refine ⟨?_, ?_, ?_⟩
  · intro topics alpha i hi
    exact ⟨one_mul 1, one_mul 1⟩
  · intro env s context features now res hres h
    rw [selectTopic] at hres
    split at hres
    · exact Option.noConfusion hres
    · obtain rfl := Option.some_inj.mp hres
      exact h
  · intro env s idx r features now s' hs' h
    by_cases hv : idx < 0 ∨ (s.topics.length : ℤ) ≤ idx
    · rw [update, if_pos hv] at hs'
      obtain rfl := Option.some_inj.mp hs'
      exact h
    · rcases he : emotionRaises (resolveUpdatePayload s idx.toNat features).emotion with _ | _
      · rw [update_eq_of_valid env s idx r features now hv he] at hs'
        obtain rfl := Option.some_inj.mp hs'
        intro i hi
        by_cases hij : i = idx.toNat
        · subst hij
          simp only [setAt_same]
          rcases hm : minv ((getArm s idx.toNat).A +
              vecMulVec (updateVector env s idx.toNat features now)
                (updateVector env s idx.toNat features now)) with _ | B
          · rw [armStep_none hm]
            exact ⟨one_mul 1, one_mul 1⟩
          · rw [armStep_some hm]
            exact minv_mul hm
        · simp only [setAt_ne _ _ hij]
          exact h i hi
      · rw [update, if_neg hv, if_pos he] at hs'
        exact Option.noConfusion hs'

/-- If a payload was recorded for arm `i`, an `update` without explicit
features resolves to exactly that payload. -/
lemma resolveUpdatePayload_some {s : BanditState} {i : ℕ} {f : Payload}
    (h : s.lastFeatures i = some f) : resolveUpdatePayload s i none = f := by
  rw [resolveUpdatePayload, h]

/-- C3 (amended): an `update` call with `features` omitted reuses exactly
the feature *payload* captured for that arm by the most recent
`select_topic` (falling back to a context-only payload if none was ever
recorded), and recomputes the feature vector from it at update time;
the recomputed vector need not equal the select-time vector (see the
counterexample). -/
theorem c3_payload_reuse (env : Env) (s : BanditState) (context : PyStr)
    (features : Option Payload) (now : ℚ) :
    (∀ res, selectTopic env s context features now = some res →
      resolveUpdatePayload res.2 res.1.1 none = resolveSelectPayload context features) ∧
    (∀ i, s.lastFeatures i = none →
      resolveUpdatePayload s i none =
        ⟨some ((s.lastContexts i).getD []), EmotionData.nothing⟩) := by
  constructor
  · intro res hres
    rw [selectTopic] at hres
    split at hres
    · exact Option.noConfusion hres
    · obtain rfl := Option.some_inj.mp hres
      exact resolveUpdatePayload_some
        (setAt_same s.lastFeatures (selectIdx env s (resolveSelectPayload context features) now)
          (some (resolveSelectPayload context features)))
  · intro i h
    rw [resolveUpdatePayload, h]

/-- The concrete result of a cold-start selection (used by witnesses). -/
def s3sel : (ℕ × PyStr) × BanditState :=
  (selectTopic env0 (initState [['a']] 1) [] none 0).getD ((0, []), initState [['a']] 1)

/-- Witness for C3 on a concrete engine. -/
theorem c3_witness :
    (selectTopic env0 (initState [['a']] 1) [] none 0 = some s3sel) ∧
    ((initState [['a']] 1).lastFeatures 0 = none) ∧
    (resolveUpdatePayload s3sel.2 s3sel.1.1 none = resolveSelectPayload [] none) ∧
    (resolveUpdatePayload (initState [['a']] 1) 0 none =
      ⟨some (((initState [['a']] 1).lastContexts 0).getD []), EmotionData.nothing⟩) :=
  ⟨rfl, rfl,
   (c3_payload_reuse env0 (initState [['a']] 1) [] none 0).1 s3sel rfl,
   (c3_payload_reuse env0 (initState [['a']] 1) [] none 0).2 0 rfl⟩

/-- The engine state after one cold-start selection at time `100`. -/
def s3b : BanditState :=
  ((selectTopic env0 (initState [['a']] (1/10)) [] none 100).getD
    ((0, []), initState [['a']] (1/10))).2

/-- Counterexample for C3 as stated: after selecting arm `0` at time
`100`, an `update` at time `400` with `features` omitted trains on a
vector that differs from the one scored during the select — the recency
component was `0` at selection (never selected before) and is
`exp(-1) ≠ 0` at update time. -/
theorem c3_cex :
    updateVector env0 s3b 0 none 400 ≠
      featureVectorCore env0 (initState [['a']] (1/10)) 0 (resolveSelectPayload [] none) 100 := by
  decide

/-- Lowercasing preserves emptiness. -/
lemma lowerStr_eq_nil {t : PyStr} : lowerStr t = [] ↔ t = [] := by
  simp [lowerStr]

/-- Only the empty string occurs in the empty string (Python `t in ""`). -/
lemma containsSub_nil_right {t : PyStr} (h : t ≠ []) : containsSub t [] = false := by
  cases t with
  | nil => exact absurd rfl h
  | cons a as => rfl

/-- At cold start with empty context, every arm with a nonempty label
scores exactly as arm `0` does (identical feature vectors and arm
statistics). -/
lemma armScore_cold (env : Env) (topics : List PyStr) (alpha : ℚ) (i : ℕ)
    (hlab : topics.getD i [] ≠ []) (hlab0 : topics.getD 0 [] ≠ []) :
    armScore env (initState topics alpha) i (resolveSelectPayload [] none) 0 =
      armScore env (initState topics alpha) 0 (resolveSelectPayload [] none) 0 := by
  have h1 : containsSub (lowerStr ((initState topics alpha).topics.getD i []))
      (lowerStr (((resolveSelectPayload [] none).contextText).getD [])) = false :=
    containsSub_nil_right fun hc => hlab (lowerStr_eq_nil.mp hc)
  have h2 : containsSub (lowerStr ((initState topics alpha).topics.getD 0 []))
      (lowerStr (((resolveSelectPayload [] none).contextText).getD [])) = false :=
    containsSub_nil_right fun hc => hlab0 (lowerStr_eq_nil.mp hc)
  have hfv : featureVectorCore env (initState topics alpha) i (resolveSelectPayload [] none) 0 =
      featureVectorCore env (initState topics alpha) 0 (resolveSelectPayload [] none) 0 := by
    rw [featureVectorCore, featureVectorCore, h1, h2]
    rfl
  rw [armScore, armScore, hfv]
  rfl

/-- The selection loop keeps the incumbent when every remaining score
ties it (strict `>` comparison). -/
lemma selectFold_const (env : Env) (s : BanditState) (p : Payload) (now : ℚ)
    (v : ℚ) (j : ℕ) (l : List ℕ)
    (h : ∀ i ∈ l, armScore env s i p now = v) :
    l.foldl (selectStep env s p now) (some v, j) = (some v, j) := by
  induction l with
  | nil => rfl
  | cons a as ih =>
    rw [List.foldl_cons]
    have ha := h a (List.mem_cons_self a as)
    have hstep : selectStep env s p now (some v, j) a = (some v, j) := by
      rw [selectStep, ha]
      simp
    rw [hstep]
    exact ih fun i hi => h i (List.mem_cons_of_mem a hi)

/-- C4 (amended): on a cold-start engine whose topic labels are all
nonempty, `select_topic` with empty context returns arm index `0` for
every constructor `alpha` and every environment — all arms score
identically and ties break to the lowest index.  (The nonemptiness
hypothesis is forced: an empty label is a substring of the empty
context, giving that arm a strictly larger keyword feature — see the
counterexample.) -/
theorem c4_cold_start_select (env : Env) (topics : List PyStr) (alpha : ℚ)
    (hne : topics ≠ []) (hlabels : ∀ t ∈ topics, t ≠ []) :
    (selectTopic env (initState topics alpha) [] none 0).map (fun r => r.1.1) = some 0 := by
  rw [selectTopic, if_neg (by decide)]
  rw [Option.map_some']
  refine congrArg some ?_
  show selectIdx env (initState topics alpha) (resolveSelectPayload [] none) 0 = 0
  rw [selectIdx]
  obtain ⟨t0, ts, rfl⟩ := List.exists_cons_of_ne_nil hne
  rw [show (initState (t0 :: ts) alpha).topics.length = ts.length + 1 from rfl]
  rw [List.range_succ_eq_map, List.foldl_cons]
  have hfirst : selectStep env (initState (t0 :: ts) alpha)
      (resolveSelectPayload [] none) 0 ((none : Option ℚ), 0) 0 =
      (some (armScore env (initState (t0 :: ts) alpha) 0 (resolveSelectPayload [] none) 0), 0) := rfl
  rw [hfirst]
  have hconst := selectFold_const env (initState (t0 :: ts) alpha)
    (resolveSelectPayload [] none) 0
    (armScore env (initState (t0 :: ts) alpha) 0 (resolveSelectPayload [] none) 0) 0
    (List.map Nat.succ (List.range ts.length)) ?_
  · rw [hconst]
  · intro i hi
    obtain ⟨j, hj, rfl⟩ := List.mem_map.mp hi
    have hjlen : j < ts.length := List.mem_range.mp hj
    apply armScore_cold
    · have hsucc : (t0 :: ts).getD (Nat.succ j) [] = ts.getD j [] := rfl
      rw [hsucc]
      rw [List.getD_eq_getElem ts [] (by omega)]
      exact hlabels ts[j] (List.mem_cons_of_mem t0 (List.getElem_mem hjlen))
    · exact hlabels t0 (List.mem_cons_self t0 ts)

/-- Witness for C4 on the spec's two-topic engine. -/
theorem c4_witness :
    ((["music".toList, "sports".toList] : List PyStr) ≠ []) ∧
    (∀ t ∈ (["music".toList, "sports".toList] : List PyStr), t ≠ []) ∧
    (selectTopic env0 (initState ["music".toList, "sports".toList] (1/10)) [] none 0).map
      (fun r => r.1.1) = some 0 :=
  ⟨by decide, by decide,
   c4_cold_start_select env0 ["music".toList, "sports".toList] (1/10) (by decide) (by decide)⟩

/-- Counterexample for C4 as stated: a cold-start engine with topics
`["x", ""]` and empty context selects arm `1`, not `0` — the empty
label matches the empty context as a substring, so its keyword feature
is `1` and its score is strictly larger. -/
theorem c4_cex :
    (selectTopic env0 (initState [['x'], []] (1/10)) [] none 0).map
      (fun r => r.1.1) ≠ some 0 := by
  decide

/-- C5: an out-of-range index makes `update` return normally with the
whole engine state unchanged — the guard precedes every computation, so
no exception is raised either (in particular the payload's error path
is never reached). -/
theorem c5_out_of_range_noop (env : Env) (s : BanditState) (idx : ℤ) (r : ℚ)
    (features : Option Payload) (now : ℚ)
    (h : idx < 0 ∨ (s.topics.length : ℤ) ≤ idx) :
    update env s idx r features now = some s := by
  rw [update, if_pos h]

/-- Witness for C5 at `update(-1, 0.8)`. -/
theorem c5_witness :
    ((-1 : ℤ) < 0 ∨ (((initState [['a']] 1).topics.length : ℤ) ≤ -1)) ∧
      update env0 (initState [['a']] 1) (-1) (8/10) none 0 = some (initState [['a']] 1) :=
  ⟨Or.inl (by decide),
   c5_out_of_range_noop env0 (initState [['a']] 1) (-1) (8/10) none 0 (Or.inl (by decide))⟩

/-- C7 (amended): the history is append-only — `add_to_history` appends
exactly one record and `select_topic` / `update` leave it unchanged —
but nothing ever trims it (no 50-record bound, see the counterexample). -/
theorem c7_history_append_only (env : Env) (s : BanditState)
    (u rp t context : PyStr) (features fpay : Option Payload)
    (idx : ℤ) (r now : ℚ) :
    (addToHistory s u rp t now).history = s.history ++ [⟨u, rp, t, now⟩] ∧
    (∀ res, selectTopic env s context fpay now = some res →
      res.2.history = s.history) ∧
    (∀ s', update env s idx r features now = some s' →
      s'.history = s.history) := by
  refine ⟨rfl, ?_, ?_⟩
  · intro res hres
    rw [selectTopic] at hres
    split at hres
    · exact Option.noConfusion hres
    · obtain rfl := Option.some_inj.mp hres
      rfl
  · intro s' hs'
    rw [update] at hs'
    split at hs'
    · obtain rfl := Option.some_inj.mp hs'
      rfl
    · split at hs'
      · exact Option.noConfusion hs'
      · obtain rfl := Option.some_inj.mp hs'
        rfl

/-- Witness for C7: one append, one completed select, one (no-op)
update, each at a concrete engine. -/
theorem c7_witness :
    ((addToHistory (initState [['a']] 1) [] [] [] 0).history =
      (initState [['a']] 1).history ++ [⟨[], [], [], 0⟩]) ∧
    s3sel.2.history = (initState [['a']] 1).history ∧
    (initState [['a']] 1).history = (initState [['a']] 1).history :=
  ⟨(c7_history_append_only env0 (initState [['a']] 1) [] [] [] [] none none (-1) 0 0).1,
   (c7_history_append_only env0 (initState [['a']] 1) [] [] [] [] none none (-1) 0 0).2.1
     s3sel rfl,
   (c7_history_append_only env0 (initState [['a']] 1) [] [] [] [] none none (-1) 0 0).2.2
     (initState [['a']] 1) (by rw [update, if_pos (Or.inl (by decide))])⟩

/-- Counterexample for C7 as stated: 51 `add_to_history` calls leave 51
records in the history — it is not bounded by the most recent 50. -/
theorem c7_cex :
    50 < ((fun s => addToHistory s [] [] [] 0)^[51] (initState [['a']] 1)).history.length := by
  decide

/-- C9: two states differing only in the per-arm `values` produce the
same score for every arm and the same `(index, label)` outcome from
`select_topic` — including the exception path, which depends only on
the payload: `value` never influences scoring. -/
theorem c9_value_invisible (env : Env) (s : BanditState) (vals : ℕ → ℚ)
    (context : PyStr) (features : Option Payload) (now : ℚ) :
    (∀ i p, armScore env { s with values := vals } i p now = armScore env s i p now) ∧
    (selectTopic env { s with values := vals } context features now).map (fun r => r.1) =
      (selectTopic env s context features now).map (fun r => r.1) := by
  refine ⟨fun i p => rfl, ?_⟩
  by_cases hc : emotionRaises (resolveSelectPayload context features).emotion = true
  · rw [selectTopic, selectTopic, if_pos hc, if_pos hc]
  · rw [selectTopic, selectTopic, if_neg hc, if_neg hc]
    rfl

/-- A payload whose `'emotion'` entry is the nonempty bare string
`"happy"` (`{'emotion': 'happy'}`). -/
def pStr : Payload := ⟨none, EmotionData.strVal "happy".toList⟩

/-- Counterexample for C10 as stated: with the payload
`{'emotion': 'happy'}` (a nonempty bare string), `select_topic` raises
`AttributeError` at the first feature encoding (`topic_bandit.py:149`),
before any of its mutations at lines 80-84 — so no `(index, label)` is
returned, `totalSelections` is not incremented, and an exception
propagates, contradicting the claimed mutation-and-return behaviour. -/
theorem c10_cex :
    selectTopic env0 (initState [['a']] 1) [] (some pStr) 0 = none := rfl

/-- C10 (amended): `select_topic` on an engine with at least one arm,
for every payload on which feature encoding succeeds, leaves every
arm's `A`, `Ainv`, `b`, `count`, `value` and the history (and the topic
list and exploration parameter) unchanged; its only mutations are the
chosen arm's last context, last feature payload and last-selected
timestamp, and `total_selections + 1`.  For a payload whose emotion
entry is a nonempty bare string the call instead raises before mutating
anything, and no result is produced. -/
theorem c10_select_frame (env : Env) (s : BanditState) (context : PyStr)
    (features : Option Payload) (now : ℚ) (hn : 0 < s.topics.length) :
    (emotionRaises (resolveSelectPayload context features).emotion = false →
      selectTopic env s context features now = some
        ((selectIdx env s (resolveSelectPayload context features) now,
          s.topics.getD (selectIdx env s (resolveSelectPayload context features) now) []),
         { s with
            lastContexts := setAt s.lastContexts
              (selectIdx env s (resolveSelectPayload context features) now) (some context)
            lastFeatures := setAt s.lastFeatures
              (selectIdx env s (resolveSelectPayload context features) now)
              (some (resolveSelectPayload context features))
            lastSelectedTimes := setAt s.lastSelectedTimes
              (selectIdx env s (resolveSelectPayload context features) now) now
            totalSelections := s.totalSelections + 1 })) ∧
    (emotionRaises (resolveSelectPayload context features).emotion = true →
      selectTopic env s context features now = none) := by
  constructor
  · intro hemo
    rw [selectTopic, if_neg (by simp [hemo])]
  · intro hemo
    rw [selectTopic, if_pos hemo]

/-- Witness for C10: both branches at concrete one-arm engines — a
completed selection with its exact mutation set, and the raising
payload producing no result. -/
theorem c10_witness :
    0 < (initState [['a']] 1).topics.length ∧
    emotionRaises (resolveSelectPayload [] none).emotion = false ∧
    (selectTopic env0 (initState [['a']] 1) [] none 0 = some
      ((selectIdx env0 (initState [['a']] 1) (resolveSelectPayload [] none) 0,
        (initState [['a']] 1).topics.getD
          (selectIdx env0 (initState [['a']] 1) (resolveSelectPayload [] none) 0) []),
       { initState [['a']] 1 with
          lastContexts := setAt (initState [['a']] 1).lastContexts
            (selectIdx env0 (initState [['a']] 1) (resolveSelectPayload [] none) 0) (some [])
          lastFeatures := setAt (initState [['a']] 1).lastFeatures
            (selectIdx env0 (initState [['a']] 1) (resolveSelectPayload [] none) 0)
            (some (resolveSelectPayload [] none))
          lastSelectedTimes := setAt (initState [['a']] 1).lastSelectedTimes
            (selectIdx env0 (initState [['a']] 1) (resolveSelectPayload [] none) 0) 0
          totalSelections := (initState [['a']] 1).totalSelections + 1 })) ∧
    emotionRaises (resolveSelectPayload [] (some pStr)).emotion = true ∧
    selectTopic env0 (initState [['a']] 1) [] (some pStr) 0 = none :=
  ⟨by decide, rfl,
   (c10_select_frame env0 (initState [['a']] 1) [] none 0 (by decide)).1 rfl,
   rfl,
   (c10_select_frame env0 (initState [['a']] 1) [] (some pStr) 0 (by decide)).2 rfl⟩

/-! ### Rank-one update algebra (for the reward-monotonicity claim) -/

/-- `(x·yᵗ) v = (y ⬝ᵥ v) • x`. -/
lemma vecMulVec_mulVec_eq (x y v : Vec) : vecMulVec x y *ᵥ v = (y ⬝ᵥ v) • x := by
  funext i
  simp only [Matrix.mulVec, Matrix.vecMulVec_apply, Matrix.dotProduct,
    Pi.smul_apply, smul_eq_mul]
  rw [Finset.sum_mul]
  exact Finset.sum_congr rfl fun k _ => by ring

/-- `(x·xᵗ)² = (xᵗx) • (x·xᵗ)`. -/
lemma M_mul_M (x : Vec) :
    vecMulVec x x * vecMulVec x x = (x ⬝ᵥ x) • vecMulVec x x := by
  ext i j
  simp only [Matrix.mul_apply, Matrix.vecMulVec_apply, Matrix.smul_apply,
    Matrix.dotProduct, smul_eq_mul]
  rw [Finset.sum_mul]
  exact Finset.sum_congr rfl fun k _ => by ring

/-- Products of rank-one perturbations of the identity. -/
lemma one_add_smul_mul (x : Vec) (a c : ℚ) :
    (1 + a • vecMulVec x x) * (1 + c • vecMulVec x x) =
      1 + (a + c + a * c * (x ⬝ᵥ x)) • vecMulVec x x := by
  simp only [mul_add, add_mul, mul_one, one_mul, smul_mul_assoc,
    mul_smul_comm, M_mul_M, smul_smul]
  module

/-- Closed form of `k` fixed-vector updates from cold start:
`A = 1 + k·xxᵗ`, `Ainv = 1 - (k/(1+k·s))·xxᵗ` (Sherman–Morrison) and
`b = (k·r)·x`; in particular the inversion succeeds at every step. -/
lemma armIter_spec (x : Vec) (r : ℚ) (hx : 0 < x ⬝ᵥ x) : ∀ k : ℕ,
    (armIter x r k).A = 1 + (k : ℚ) • vecMulVec x x ∧
    (armIter x r k).Ainv = 1 - ((k : ℚ) / (1 + (k : ℚ) * (x ⬝ᵥ x))) • vecMulVec x x ∧
    (armIter x r k).b = ((k : ℚ) * r) • x := by
  intro k
  induction k with
  | zero =>
    refine ⟨?_, ?_, ?_⟩
    · show (1 : Mat) = 1 + (0 : ℚ) • vecMulVec x x
      rw [zero_smul, add_zero]
    · show (1 : Mat) = 1 - ((0 : ℚ) / (1 + 0 * (x ⬝ᵥ x))) • vecMulVec x x
      rw [zero_div, zero_smul, sub_zero]
    · show (0 : Vec) = ((0 : ℚ) * r) • x
      rw [zero_mul, zero_smul]
  | succ k ih =>
    obtain ⟨ihA, ihAinv, ihb⟩ := ih
    have hden : (1 : ℚ) + ((k : ℚ) + 1) * (x ⬝ᵥ x) ≠ 0 := by
      have hk : (0 : ℚ) ≤ (k : ℚ) := Nat.cast_nonneg k
      nlinarith
    have hAstep : (armIter x r k).A + vecMulVec x x =
        1 + (((k : ℚ) + 1)) • vecMulVec x x := by
      rw [ihA, add_assoc, add_smul, one_smul]
    have hprod : (1 + (((k : ℚ) + 1)) • vecMulVec x x) *
        (1 + (-(((k : ℚ) + 1) / (1 + ((k : ℚ) + 1) * (x ⬝ᵥ x)))) • vecMulVec x x) = 1 := by
      rw [one_add_smul_mul]
      have hc : ((k : ℚ) + 1) + (-(((k : ℚ) + 1) / (1 + ((k : ℚ) + 1) * (x ⬝ᵥ x)))) +
          ((k : ℚ) + 1) * (-(((k : ℚ) + 1) / (1 + ((k : ℚ) + 1) * (x ⬝ᵥ x)))) * (x ⬝ᵥ x) = 0 := by
        field_simp
        ring
      rw [hc, zero_smul, add_zero]
    have hmv : minv ((armIter x r k).A + vecMulVec x x) =
        some (1 + (-(((k : ℚ) + 1) / (1 + ((k : ℚ) + 1) * (x ⬝ᵥ x)))) • vecMulVec x x) := by
      rw [hAstep]
      exact minv_eq_some hprod
    rw [show armIter x r (k + 1) = armStep x r (armIter x r k) from rfl,
      armStep_some hmv]
    push_cast
    refine ⟨?_, ?_, ?_⟩
    · show (armIter x r k).A + vecMulVec x x = 1 + ((k : ℚ) + 1) • vecMulVec x x
      exact hAstep
    · show 1 + (-(((k : ℚ) + 1) / (1 + ((k : ℚ) + 1) * (x ⬝ᵥ x)))) • vecMulVec x x =
        1 - (((k : ℚ) + 1) / (1 + ((k : ℚ) + 1) * (x ⬝ᵥ x))) • vecMulVec x x
      rw [neg_smul, ← sub_eq_add_neg]
    · show (armIter x r k).b + r • x = (((k : ℚ) + 1) * r) • x
      rw [ihb, ← add_smul]
      ring_nf

/-- The exploitation term after `k` fixed-vector updates:
`theta · x = k·r·s / (1 + k·s)` with `s = xᵗx`. -/
lemma thetaDot_iter (x : Vec) (r : ℚ) (hx : 0 < x ⬝ᵥ x) (k : ℕ) :
    thetaDot (armIter x r k) x =
      ((k : ℚ) * r * (x ⬝ᵥ x)) / (1 + (k : ℚ) * (x ⬝ᵥ x)) := by
  obtain ⟨hA, hAinv, hb⟩ := armIter_spec x r hx k
  have hden : (1 : ℚ) + (k : ℚ) * (x ⬝ᵥ x) ≠ 0 := by
    have hk : (0 : ℚ) ≤ (k : ℚ) := Nat.cast_nonneg k
    nlinarith
  rw [thetaDot, hAinv, hb]
  rw [Matrix.sub_mulVec, Matrix.one_mulVec, Matrix.smul_mulVec_assoc,
    Matrix.mulVec_smul, vecMulVec_mulVec_eq]
  rw [Matrix.sub_dotProduct, Matrix.smul_dotProduct, Matrix.smul_dotProduct,
    Matrix.smul_dotProduct]
  simp only [smul_eq_mul]
  field_simp
  ring

/-- Every encoded feature vector has a positive self-product (its bias
component is the constant `1`), so the hypothesis of the
reward-monotonicity claim holds for every vector the code can train on. -/
lemma featureVector_dot_pos (env : Env) (s : BanditState) (i : ℕ)
    (p : Payload) (now : ℚ) :
    0 < featureVectorCore env s i p now ⬝ᵥ featureVectorCore env s i p now := by
  rw [Matrix.dotProduct]
  apply Finset.sum_pos'
  · intro j _
    exact mul_self_nonneg _
  · refine ⟨0, Finset.mem_univ 0, ?_⟩
    have h0 : featureVectorCore env s i p now 0 = 1 := rfl
    rw [h0]
    norm_num

/-- C6: iterating the arm-level update (`armStep`, the body of
`TopicBandit.update` lines 271-286) from cold start with a fixed feature
vector `x` (any vector with `xᵗx > 0`, which every encoded feature
vector satisfies by `featureVector_dot_pos`) and reward `1.0` makes the
exploitation term `theta · x` (`theta = Ainv b`) strictly increase at
every iteration, while reward `0.0` never increases it. -/
theorem c6_reward_monotone (x : Vec) (hx : 0 < x ⬝ᵥ x) :
    (∀ k : ℕ, thetaDot (armIter x 1 k) x < thetaDot (armIter x 1 (k + 1)) x) ∧
    (∀ k : ℕ, thetaDot (armIter x 0 (k + 1)) x ≤ thetaDot (armIter x 0 k) x) := by
  constructor
  · intro k
    rw [thetaDot_iter x 1 hx k, thetaDot_iter x 1 hx (k + 1)]
    have hd1 : (0 : ℚ) < 1 + (k : ℚ) * (x ⬝ᵥ x) := by
      have hk : (0 : ℚ) ≤ (k : ℚ) := Nat.cast_nonneg k
      nlinarith
    have hd2 : (0 : ℚ) < 1 + ((k : ℚ) + 1) * (x ⬝ᵥ x) := by
      have hk : (0 : ℚ) ≤ (k : ℚ) := Nat.cast_nonneg k
      nlinarith
    push_cast
    rw [div_lt_div_iff hd1 hd2]
    have hk : (0 : ℚ) ≤ (k : ℚ) := Nat.cast_nonneg k
    nlinarith
  · intro k
    rw [thetaDot_iter x 0 hx k, thetaDot_iter x 0 hx (k + 1)]
    simp

/-- Witness for C6 at the bias-only feature vector. -/
theorem c6_witness :
    (0 : ℚ) < (![1,0,0,0,0,0,0,0,0] : Vec) ⬝ᵥ ![1,0,0,0,0,0,0,0,0] ∧
      thetaDot (armIter ![1,0,0,0,0,0,0,0,0] 1 0) ![1,0,0,0,0,0,0,0,0] <
        thetaDot (armIter ![1,0,0,0,0,0,0,0,0] 1 1) ![1,0,0,0,0,0,0,0,0] :=
  ⟨by decide, (c6_reward_monotone ![1,0,0,0,0,0,0,0,0] (by decide)).1 0⟩

/-! ### Popularity-bound claim -/

/-- `max(·, 1)` is at least `1`. -/
lemma one_le_qmax_one (a : ℚ) : (1 : ℚ) ≤ qmax a 1 := by
  rw [qmax]
  split
  · exact le_refl 1
  · linarith [lt_of_not_le (by assumption : ¬ a ≤ 1)]

/-- The popularity component of the encoded feature vector. -/
lemma featureVector_two (env : Env) (s : BanditState) (i : ℕ) (p : Payload) (now : ℚ) :
    featureVectorCore env s i p now 2 =
      s.counts i / qmax (((s.totalSelections : ℤ)) : ℚ) 1 := rfl

/-- C8 (amended): whenever feature encoding produces a vector, its
popularity component `count / max(totalSelections, 1)` is nonnegative
(given a nonnegative count) and lies in `[0, 1]` exactly when the count
does not exceed `max(totalSelections, 1)`.  It is *not* bounded by `1`
on every reachable state: updates increment `count` without touching
`totalSelections`, so update-heavy traces push it above `1` (see the
counterexample). -/
theorem c8_popularity_bounds (env : Env) (s : BanditState) (i : ℕ)
    (p : Payload) (now : ℚ) (h0 : 0 ≤ s.counts i) :
    ∀ v, featureVector env s i p now = some v →
      0 ≤ v 2 ∧
      (s.counts i ≤ qmax (((s.totalSelections : ℤ)) : ℚ) 1 → v 2 ≤ 1) := by
  intro v hv
  rw [featureVector] at hv
  split at hv
  · exact Option.noConfusion hv
  · obtain rfl := Option.some_inj.mp hv
    have hq : (0 : ℚ) < qmax (((s.totalSelections : ℤ)) : ℚ) 1 :=
      lt_of_lt_of_le one_pos (one_le_qmax_one _)
    rw [featureVector_two]
    constructor
    · exact div_nonneg h0 (le_of_lt hq)
    · intro h
      exact (div_le_one hq).mpr h

/-- The context-only payload used in the counterexample run. -/
def p8 : Payload := ⟨some [], EmotionData.nothing⟩

/-- A one-arm engine at cold start (counterexample run). -/
def s8a : BanditState := initState [['a']] 1

/-- Explicit inverse of the first update's matrix `1 + x·xᵗ`
(`x` is the bias-only vector, so `xᵗx = 1`). -/
def B81 : Mat := 1 - (1/2 : ℚ) • vecMulVec (updateVector env0 s8a 0 (some p8) 0)
  (updateVector env0 s8a 0 (some p8) 0)

lemma h81 : updatedA env0 s8a 0 (some p8) 0 * B81 = 1 := by decide

/-- `update` on a valid index, a non-raising payload, and an inversion
that provably succeeds (a right inverse is exhibited): the success
branch written out. -/
lemma update_of_right_inv (env : Env) (s : BanditState) (idx : ℤ) (r : ℚ)
    (features : Option Payload) (now : ℚ) (C : Mat)
    (h : ¬(idx < 0 ∨ (s.topics.length : ℤ) ≤ idx))
    (hemo : emotionRaises (resolveUpdatePayload s idx.toNat features).emotion = false)
    (hC : updatedA env s idx.toNat features now * C = 1) :
    update env s idx r features now = some
      { s with
          A := setAt s.A idx.toNat (updatedA env s idx.toNat features now)
          Ainv := setAt s.Ainv idx.toNat C
          b := setAt s.b idx.toNat
            ((getArm s idx.toNat).b + r • updateVector env s idx.toNat features now)
          counts := setAt s.counts idx.toNat ((getArm s idx.toNat).count + 1)
          values := setAt s.values idx.toNat
            ((getArm s idx.toNat).value + (1/10) * (r - (getArm s idx.toNat).value)) } := by
  rw [update_eq_of_valid env s idx r features now h hemo]
  have hm : minv ((getArm s idx.toNat).A +
      vecMulVec (updateVector env s idx.toNat features now)
        (updateVector env s idx.toNat features now)) = some C := by
    have hs := minv_eq_some hC
    rw [updatedA] at hs
    exact hs
  rw [armStep_some hm]
  rfl

/-- The engine after one successful reward-1 update on arm `0` with no
select ever performed (`counts[0] = 1`, `totalSelections = 0`). -/
def s8b : BanditState :=
  { s8a with
      A := setAt s8a.A 0 (updatedA env0 s8a 0 (some p8) 0)
      Ainv := setAt s8a.Ainv 0 B81
      b := setAt s8a.b 0
        ((getArm s8a 0).b + (1:ℚ) • updateVector env0 s8a 0 (some p8) 0)
      counts := setAt s8a.counts 0 ((getArm s8a 0).count + 1)
      values := setAt s8a.values 0
        ((getArm s8a 0).value + (1/10) * (1 - (getArm s8a 0).value)) }

lemma s8b_eq : update env0 s8a 0 1 (some p8) 0 = some s8b :=
  update_of_right_inv env0 s8a 0 1 (some p8) 0 B81 (by decide) rfl h81

/-- Witness for C2: the invariant after a completed update from cold
start. -/
theorem c2_witness : GoodState s8b :=
  c2_inverse_invariant.2.2 env0 s8a 0 1 (some p8) 0 s8b s8b_eq
    (c2_inverse_invariant.1 [['a']] 1)

/-- Explicit inverse of the second update's matrix
`1 + e₀·e₀ᵗ + (e₀+e₂)·(e₀+e₂)ᵗ` (a 2×2 block `[[3,1],[1,2]]` of
determinant `5` inside the identity). -/
def B82 : Mat := fun i j =>
  if i = 0 ∧ j = 0 then 2/5
  else if (i = 0 ∧ j = 2) ∨ (i = 2 ∧ j = 0) then -(1/5)
  else if i = 2 ∧ j = 2 then 3/5
  else if i = j then 1 else 0

lemma h82 : updatedA env0 s8b 0 (some p8) 0 * B82 = 1 := by decide

/-- The engine after a second successful reward-1 update on arm `0`,
still with no select (`counts[0] = 2`, `totalSelections = 0`). -/
def s8c : BanditState :=
  { s8b with
      A := setAt s8b.A 0 (updatedA env0 s8b 0 (some p8) 0)
      Ainv := setAt s8b.Ainv 0 B82
      b := setAt s8b.b 0
        ((getArm s8b 0).b + (1:ℚ) • updateVector env0 s8b 0 (some p8) 0)
      counts := setAt s8b.counts 0 ((getArm s8b 0).count + 1)
      values := setAt s8b.values 0
        ((getArm s8b 0).value + (1/10) * (1 - (getArm s8b 0).value)) }

lemma s8c_eq : update env0 s8b 0 1 (some p8) 0 = some s8c :=
  update_of_right_inv env0 s8b 0 1 (some p8) 0 B82 (by decide) rfl h82

/-- Counterexample for C8 as stated: two reward-1 updates on arm `0` of
a cold-start one-arm engine, with no intervening select (a reachable
call sequence through the public API), leave `counts[0] = 2` and
`totalSelections = 0`, so the popularity feature of the resulting
encoded vector evaluates to `2 > 1`. -/
theorem c8_cex :
    ((update env0 s8a 0 1 (some p8) 0).bind
      (fun s1 => update env0 s1 0 1 (some p8) 0)) = some s8c ∧
    featureVector env0 s8c 0 p8 0 = some (featureVectorCore env0 s8c 0 p8 0) ∧
    1 < featureVectorCore env0 s8c 0 p8 0 2 := by
  refine ⟨?_, rfl, by decide⟩
  rw [s8b_eq]
  show update env0 s8b 0 1 (some p8) 0 = some s8c
  exact s8c_eq

/-- Witness for C8 at a cold-start engine. -/
theorem c8_witness :
    (0 ≤ (initState [['a']] 1).counts 0) ∧
    (featureVector env0 (initState [['a']] 1) 0 p8 0 =
      some (featureVectorCore env0 (initState [['a']] 1) 0 p8 0)) ∧
    (0 ≤ featureVectorCore env0 (initState [['a']] 1) 0 p8 0 2 ∧
      ((initState [['a']] 1).counts 0 ≤
          qmax ((((initState [['a']] 1).totalSelections : ℤ)) : ℚ) 1 →
        featureVectorCore env0 (initState [['a']] 1) 0 p8 0 2 ≤ 1)) :=
  ⟨le_refl 0, rfl,
   c8_popularity_bounds env0 (initState [['a']] 1) 0 p8 0 (le_refl 0)
     (featureVectorCore env0 (initState [['a']] 1) 0 p8 0) rfl⟩

end RecoMate
